import Mathlib

/-!
Verification development for the go-mysql-server connection handler
(`server/handler.go`) and the `ShowProcessList` plan node
(`sql/plan/processlist.go`).

The Go source is shallowly embedded: pure functions become Lean functions,
the goroutine pipeline of `doQuery` becomes explicit recursion over a list
of scheduling events, machine integers become `Nat`/`Int` with explicit
bounds where overflow matters, and fallible code returns `Except`.
-/

namespace GMS

/-! ## Wire types (vitess `sqltypes` / `query.Type`) -/

/-- The vitess wire type tags that a bind variable can carry
(`query.Type` in vitess, used via `sqltypes` in `bindingsToExprs`). -/
inductive WireType where
  | nullT
  | int8 | uint8 | int16 | uint16 | int24 | uint24 | int32 | uint32
  | int64 | uint64
  | float32 | float64
  | timestamp | date | time | datetime
  | year
  | decimal
  | text | blob | varchar | varbinary | char | binary
  | bit
  | enum | set | tuple
  | geometry | json | expression
  | hexNum | hexVal | bitNum
  deriving DecidableEq, Repr

namespace WireType

/-- `sqltypes.IsSigned`: the signed integral wire types. -/
def isSigned : WireType → Bool
  | .int8 | .int16 | .int24 | .int32 | .int64 => true
  | _ => false

/-- `sqltypes.IsUnsigned`: the unsigned integral wire types
(in vitess, `Year` also carries the unsigned-integral flags). -/
def isUnsigned : WireType → Bool
  | .uint8 | .uint16 | .uint24 | .uint32 | .uint64 | .year => true
  | _ => false

/-- `sqltypes.IsFloat`: the floating point wire types. -/
def isFloat : WireType → Bool
  | .float32 | .float64 => true
  | _ => false

end WireType

/-! ## Engine literal types (the `types` package, as used by `bindingsToExprs`) -/

/-- The datetime subtype chosen by `types.CreateDatetimeType`. -/
inductive DatetimeSub where
  | date | datetime | timestamp
  deriving DecidableEq, Repr

/-- The engine-side type of a literal expression produced by
`bindingsToExprs` (the `Literal`'s declared `sql.Type`). -/
inductive LitType where
  | yearT
  | int64T
  | uint64T
  | float64T
  | internalDecimalT
  | bitT (maxBits : Nat)
  | nullT
  | binaryT (tag : WireType) (length : Nat)
  | stringT (tag : WireType) (length : Nat)
  | datetimeT (sub : DatetimeSub)
  | timeT
  deriving DecidableEq, Repr

/-- Values carried by literal expressions in the embedding. -/
inductive LitVal where
  | vInt (i : Int)
  | vNat (n : Nat)
  | vStr (s : String)
  | vBytes (s : String)
  | vNull
  deriving DecidableEq, Repr

/-- An engine literal expression (`expression.NewLiteral v t`). -/
structure Literal where
  val : LitVal
  typ : LitType
  deriving DecidableEq, Repr

instance {ε α : Type} [DecidableEq ε] [DecidableEq α] : DecidableEq (Except ε α) := fun x y =>
  match x, y with
  | .ok a, .ok b =>
    if h : a = b then isTrue (by rw [h]) else isFalse (by simp [h])
  | .error a, .error b =>
    if h : a = b then isTrue (by rw [h]) else isFalse (by simp [h])
  | .ok _, .error _ => isFalse (by simp)
  | .error _, .ok _ => isFalse (by simp)

/-- Errors surfaced by the embedded handler code. -/
inductive SErr where
  | unsupportedOperation
  | parseError
  | convertError
  | rowTimeout
  | connectionWasClosed
  | genericError (tag : Nat)
  deriving DecidableEq, Repr

/-! ## Base-0 numeric parsing

Modelled from the spec: `strconv.ParseInt`/`ParseUint` with base 0 accept a
`0x`/`0X` hex prefix, a `0o`/`0O` octal prefix, a `0b`/`0B` binary prefix
and plain decimal, and fail on empty or malformed digit strings or on
values outside the 64-bit range. (The Go standard library is external to
the repository; only its base-0 behaviour is relied on.)
-/

/-- Value of one digit character, if valid in the given base. -/
def digitVal (base : Nat) (c : Char) : Option Nat :=
  let v :=
    if '0' ≤ c ∧ c ≤ '9' then some (c.toNat - '0'.toNat)
    else if 'a' ≤ c ∧ c ≤ 'f' then some (c.toNat - 'a'.toNat + 10)
    else if 'A' ≤ c ∧ c ≤ 'F' then some (c.toNat - 'A'.toNat + 10)
    else none
  match v with
  | some d => if d < base then some d else none
  | none => none

/-- Parse a non-empty digit string in the given base. -/
def parseDigits (base : Nat) (cs : List Char) : Option Nat :=
  match cs with
  | [] => none
  | _ =>
    cs.foldlM (fun acc c => (digitVal base c).map (fun d => acc * base + d)) 0

/-- Split a base prefix (`0x`, `0o`, `0b`, or none) off a digit string;
returns the effective base and remaining characters. -/
def splitNumBase (cs : List Char) : Nat × List Char :=
  match cs with
  | '0' :: x :: rest =>
    if x = 'x' ∨ x = 'X' then (16, rest)
    else if x = 'o' ∨ x = 'O' then (8, rest)
    else if x = 'b' ∨ x = 'B' then (2, rest)
    else (8, x :: rest)
  | _ => (10, cs)

/-- Base-0 unsigned parse (`strconv.ParseUint(s, 0, 64)`): no sign allowed,
prefix-selected base, result must fit in 64 bits. -/
def parseUintBase0 (s : String) : Option Nat :=
  let (base, rest) := splitNumBase s.toList
  match parseDigits base rest with
  | some n => if n < 2 ^ 64 then some n else none
  | none =>
    -- a bare "0" surviving prefix-stripping as an empty digit string is 0
    if s.toList = ['0'] then some 0 else none

/-- Base-0 signed parse (`strconv.ParseInt(s, 0, 64)`): optional sign,
prefix-selected base, result must fit in a signed 64-bit integer. -/
def parseIntBase0 (s : String) : Option Int :=
  match s.toList with
  | '-' :: rest =>
    match parseUintBase0 (String.mk rest) with
    | some n => if (n : Int) ≤ 2 ^ 63 then some (-(n : Int)) else none
    | none => none
  | '+' :: rest =>
    match parseUintBase0 (String.mk rest) with
    | some n => if n < 2 ^ 63 then some (n : Int) else none
    | none => none
  | _ =>
    match parseUintBase0 s with
    | some n => if n < 2 ^ 63 then some (n : Int) else none
    | none => none

/-! ## External engine `Convert` steps

These live in the engine's `types` package, outside the handler source.
They are modelled from the spec's coercion table only as far as the claims
need: each may fail, and on success it yields the value the literal wraps.
-/

/-- Modelled from the spec: `types.Year.Convert` parses a string to a year
value ("string → year value"); zero and the MySQL year range are accepted. -/
def yearConvert (s : String) : Except SErr Nat :=
  match parseDigits 10 s.toList with
  | some n => if n = 0 ∨ (1901 ≤ n ∧ n ≤ 2155) then .ok n else .error .convertError
  | none => .error .convertError

/-- Modelled from the spec: `types.InternalDecimalType.Convert` parses a
string into an arbitrary-precision decimal; the embedding keeps the string
and only checks it is non-empty. -/
def decimalConvert (s : String) : Except SErr String :=
  if s.isEmpty then .error .convertError else .ok s

/-- `types.BitTypeMaxBits` (the widest `BIT` type). -/
def bitTypeMaxBits : Nat := 64

/-- Modelled from the spec: converting raw bytes with the max-width `BIT`
type fails when the value needs more than the maximum number of bits. -/
def bitConvert (bytes : String) : Except SErr String :=
  if bytes.length * 8 ≤ bitTypeMaxBits then .ok bytes else .error .convertError

/-- Modelled from the spec: `Datetime(subtype).Convert` parses a date/time
string; the embedding keeps the string and only checks it is non-empty. -/
def datetimeConvert (s : String) : Except SErr String :=
  if s.isEmpty then .error .convertError else .ok s

/-- Modelled from the spec: `types.Time.Convert` parses a time string; the
embedding keeps the string and only checks it is non-empty. -/
def timeConvert (s : String) : Except SErr String :=
  if s.isEmpty then .error .convertError else .ok s

/-! ## `bindingsToExprs` (server/handler.go) -/

/-- A wire-protocol bind variable: a type tag plus raw bytes.
The bytes are modelled as a `String` (`v.ToBytes()` / `string(v.ToBytes())`
in the source both read the same byte payload). -/
structure BindVariable where
  typ : WireType
  value : String
  deriving DecidableEq, Repr

/-- One arm of the `switch` in `bindingsToExprs`: coerce a single bind
variable to a literal expression. The case order mirrors the source. -/
def coerceBindVar (v : BindVariable) : Except SErr Literal :=
  if v.typ = .year then
    match yearConvert v.value with
    | .error e => .error e
    | .ok y => .ok ⟨.vNat y, .yearT⟩
  else if v.typ.isSigned then
    match parseIntBase0 v.value with
    | none => .error .parseError
    | some i => .ok ⟨.vInt i, .int64T⟩
  else if v.typ.isUnsigned then
    match parseUintBase0 v.value with
    | none => .error .parseError
    | some n => .ok ⟨.vNat n, .uint64T⟩
  else if v.typ.isFloat then
    -- strconv.ParseFloat: the float payload is kept as its source string
    if v.value.isEmpty then .error .parseError
    else .ok ⟨.vStr v.value, .float64T⟩
  else if v.typ = .decimal then
    match decimalConvert v.value with
    | .error e => .error e
    | .ok d => .ok ⟨.vStr d, .internalDecimalT⟩
  else if v.typ = .bit then
    match bitConvert v.value with
    | .error e => .error e
    | .ok b => .ok ⟨.vBytes b, .bitT bitTypeMaxBits⟩
  else if v.typ = .nullT then
    .ok ⟨.vNull, .nullT⟩
  else if v.typ = .blob ∨ v.typ = .varbinary ∨ v.typ = .binary then
    .ok ⟨.vBytes v.value, .binaryT v.typ v.value.length⟩
  else if v.typ = .text ∨ v.typ = .varchar ∨ v.typ = .char then
    .ok ⟨.vStr v.value, .stringT v.typ v.value.length⟩
  else if v.typ = .date ∨ v.typ = .datetime ∨ v.typ = .timestamp then
    let sub : DatetimeSub :=
      if v.typ = .date then .date else if v.typ = .datetime then .datetime else .timestamp
    match datetimeConvert v.value with
    | .error e => .error e
    | .ok d => .ok ⟨.vStr d, .datetimeT sub⟩
  else if v.typ = .time then
    match timeConvert v.value with
    | .error e => .error e
    | .ok t => .ok ⟨.vStr t, .timeT⟩
  else
    .error .unsupportedOperation

/-- `bindingsToExprs`: coerce every binding, aborting on the first error.
The Go map is embedded as an association list. -/
def bindingsToExprs (bindings : List (String × BindVariable)) :
    Except SErr (List (String × Literal)) :=
  match bindings with
  | [] => .ok []
  | (k, v) :: rest =>
    match coerceBindVar v with
    | .error e => .error e
    | .ok lit =>
      match bindingsToExprs rest with
      | .error e => .error e
      | .ok res => .ok ((k, lit) :: res)

/-! ### Spec-side coercion table (§4.A) -/

/-- Whether a wire type appears in the §4.A coercion table. -/
def WireType.isListed (t : WireType) : Bool :=
  t = .year ∨ t.isSigned ∨ t.isUnsigned ∨ t.isFloat ∨ t = .decimal ∨
  t = .bit ∨ t = .nullT ∨ t = .blob ∨ t = .varbinary ∨ t = .binary ∨
  t = .text ∨ t = .varchar ∨ t = .char ∨
  t = .date ∨ t = .datetime ∨ t = .timestamp ∨ t = .time

/-- The literal type the §4.A table assigns to a listed wire type,
given the byte length of the value. -/
def specTableType (t : WireType) (len : Nat) : LitType :=
  if t = .year then .yearT
  else if t.isSigned then .int64T
  else if t.isUnsigned then .uint64T
  else if t.isFloat then .float64T
  else if t = .decimal then .internalDecimalT
  else if t = .bit then .bitT bitTypeMaxBits
  else if t = .nullT then .nullT
  else if t = .blob ∨ t = .varbinary ∨ t = .binary then .binaryT t len
  else if t = .text ∨ t = .varchar ∨ t = .char then .stringT t len
  else if t = .date then .datetimeT .date
  else if t = .datetime then .datetimeT .datetime
  else if t = .timestamp then .datetimeT .timestamp
  else .timeT

/-! ## Schema, fields and rows (server/handler.go) -/

/-- A schema column as the handler consumes it. The engine-side `sql.Type`
is external; the three facts the handler reads off it (`Type()`,
`types.IsBinaryType`, `MaxTextResponseByteLength()`) and the per-cell SQL
formatter (`Type.SQL`, modelled from the spec as a total renderer) are
carried as fields. -/
structure SColumn where
  name : String
  typeTag : Nat
  isBinary : Bool
  maxLen : Nat
  sqlFmt : String → String

/-- A wire-protocol result field (`query.Field`). -/
structure SField where
  name : String
  typ : Nat
  charset : Nat
  columnLength : Nat
  deriving DecidableEq, Repr

/-- `mysql.CharacterSetUtf8`. -/
def characterSetUtf8 : Nat := 33

/-- `mysql.CharacterSetBinary`. -/
def characterSetBinary : Nat := 63

/-- `schemaToFields`: project schema columns to wire fields; binary-typed
columns report the binary charset, all others UTF-8. -/
def schemaToFields (s : List SColumn) : List SField :=
  s.map fun c =>
    ⟨c.name, c.typeTag, if c.isBinary then characterSetBinary else characterSetUtf8, c.maxLen⟩

/-- A wire cell: `none` is the wire NULL sentinel. -/
abbrev WireCell := Option String

/-- `rowToSQL`: convert an engine row to wire values cell by cell; null
cells become the wire NULL, other cells go through the column's SQL
formatter. -/
def rowToSQL (s : List SColumn) (row : List WireCell) : List WireCell :=
  List.zipWith (fun c cell => cell.map c.sqlFmt) s row

/-- `types.OkResult`: the in-band DML-outcome sentinel. `info` is the
optional `Info` field (`nil` becomes `none`). -/
structure OkResult where
  rowsAffected : Nat
  insertID : Nat
  info : Option String
  deriving DecidableEq, Repr

/-- An engine row as the consumer sees it: either an ordinary data row or
an `OkResult` sentinel row. -/
inductive SRow where
  | dataRow (cells : List WireCell)
  | okRow (ok : OkResult)
  deriving DecidableEq, Repr

/-- `sqltypes.Result`: the mutable batch accumulator. -/
structure SResult where
  fields : List SField
  rows : List (List WireCell)
  rowsAffected : Nat
  insertID : Nat
  info : String
  deriving DecidableEq, Repr

/-- `rowsBatch`: the flush threshold of the consumer. -/
def rowsBatch : Nat := 128

/-- `resultFromOkResult`: build a result from an `OkResult` (no fields, no
rows; empty info string when the `Info` field is nil). -/
def resultFromOkResult (ok : OkResult) : SResult :=
  { fields := []
    rows := []
    rowsAffected := ok.rowsAffected
    insertID := ok.insertID
    info := ok.info.getD "" }

/-- The fresh batch the consumer materializes at the top of its loop
(`r = &sqltypes.Result{Fields: schemaToFields(schema)}`). -/
def freshResult (schema : List SColumn) : SResult :=
  { fields := schemaToFields schema
    rows := []
    rowsAffected := 0
    insertID := 0
    info := "" }

/-! ## The consumer goroutine of `doQuery`

The consumer's `select` outcomes are embedded as a list of scheduling
events; exhausting the list is the row channel being closed by the
producer. -/

/-- One observed `select` outcome in the consumer loop. -/
inductive CEvent where
  | recv (row : SRow)
  | timerFire
  | ctxDone
  deriving DecidableEq, Repr

/-- The consumer's visible state: the shared batch pointer `r` (`none` is
the Go `nil`), the `processedAtLeastOneBatch` flag, the batches passed to
the callback inside the loop, and how many times `timer.Reset` ran. -/
structure ConsumerState where
  r : Option SResult
  processedAtLeastOneBatch : Bool
  batches : List SResult
  timerResets : Nat
  deriving DecidableEq, Repr

/-- How the consumer goroutine exits. -/
inductive ConsumerExit where
  | channelClosed
  | ctxDone
  | rowTimeout
  | panicMixed
  deriving DecidableEq, Repr

/-- Consumer result: exit kind plus final state. -/
structure ConsumerOut where
  exit : ConsumerExit
  final : ConsumerState
  deriving DecidableEq, Repr

/-- The consumer's state at `doQuery` entry: `r` nil, no batch processed. -/
def initConsumerState : ConsumerState :=
  { r := none, processedAtLeastOneBatch := false, batches := [], timerResets := 0 }

/-- The top of the consumer loop before the `select`: materialize `r` if
nil, and if the current batch holds `rowsBatch` rows deliver it via the
callback and start a fresh batch. -/
def preSelect (schema : List SColumn) (s : ConsumerState) : ConsumerState :=
  let r := s.r.getD (freshResult schema)
  if r.rowsAffected = rowsBatch then
    { r := some (freshResult schema)
      processedAtLeastOneBatch := true
      batches := s.batches ++ [r]
      timerResets := s.timerResets }
  else
    { s with r := some r }

/-- The consumer goroutine of `doQuery` (row-oriented branch), one loop
iteration per event; the callback is modelled as always succeeding and its
invocations are recorded in `batches`. -/
def consume (schema : List SColumn) (readTimeout : Nat) :
    ConsumerState → List CEvent → ConsumerOut
  | s, [] => ⟨.channelClosed, preSelect schema s⟩
  | s, ev :: rest =>
    let s' := preSelect schema s
    match ev with
    | .ctxDone => ⟨.ctxDone, s'⟩
    | .timerFire =>
      if readTimeout ≠ 0 then ⟨.rowTimeout, s'⟩
      else consume schema readTimeout { s' with timerResets := s'.timerResets + 1 } rest
    | .recv row =>
      let r := s'.r.getD (freshResult schema)
      match row with
      | .okRow ok =>
        if r.rows.length > 0 then ⟨.panicMixed, s'⟩
        else consume schema readTimeout { s' with r := some (resultFromOkResult ok) } rest
      | .dataRow cells =>
        let outputRow := rowToSQL schema cells
        let r' := { r with rows := r.rows ++ [outputRow], rowsAffected := r.rowsAffected + 1 }
        consume schema readTimeout
          { s' with r := some r', timerResets := s'.timerResets + 1 } rest

/-- Run the consumer from the initial state. -/
def runConsumer (schema : List SColumn) (readTimeout : Nat) (events : List CEvent) :
    ConsumerOut :=
  consume schema readTimeout initConsumerState events

/-- The consumer state after one loop iteration that received a data row
(used to state step lemmas about `consume`). -/
def afterDataRow (schema : List SColumn) (s : ConsumerState) (cs : List WireCell) :
    ConsumerState :=
  let s' := preSelect schema s
  let r := s'.r.getD (freshResult schema)
  { s' with
      r := some { r with
                    rows := r.rows ++ [rowToSQL schema cs]
                    rowsAffected := r.rowsAffected + 1 }
      timerResets := s'.timerResets + 1 }

/-- The complete sequence of callback invocations of a successful
`doQuery`: the in-loop batches followed by the final callback, which is
skipped exactly when `r` is non-nil with `RowsAffected == 0` after at
least one batch was already delivered (`none` records the source calling
the callback with a nil result). -/
def doQueryCallbacks (out : ConsumerOut) : List (Option SResult) :=
  (out.final.batches.map some) ++
    (match out.final.r with
     | some r =>
       if r.rowsAffected = 0 ∧ out.final.processedAtLeastOneBatch then [] else [some r]
     | none => [none])

/-- End-to-end batching for a finite stream of rows and no timer or
cancellation events. -/
def doQueryDelivered (schema : List SColumn) (readTimeout : Nat) (rows : List SRow) :
    List (Option SResult) :=
  doQueryCallbacks (runConsumer schema readTimeout (rows.map CEvent.recv))

/-- Number of rows in a delivered batch (`none`, a nil result, has none). -/
def batchSize (b : Option SResult) : Nat :=
  match b with
  | some r => r.rows.length
  | none => 0

/-! ## The socket liveness poller (`pollForClosedConnection`) -/

/-- A raw transport: a TCP connection or something else. -/
inductive RawConn where
  | tcpConn (inodeResult : Option Nat) (localTCPAddr : Option Nat)
  | otherConn
  deriving DecidableEq, Repr

/-- `c.Conn`: the transport, possibly wrapped once in
`netutil.ConnWithTimeouts`. -/
inductive NetConn where
  | wrapped (inner : RawConn)
  | plain (c : RawConn)
  deriving DecidableEq, Repr

/-- `maybeGetTCPConn`: unwrap one `ConnWithTimeouts` layer, then require a
TCP connection. -/
def maybeGetTCPConn : NetConn → Option RawConn
  | .wrapped inner =>
    match inner with
    | .tcpConn i a => some (.tcpConn i a)
    | .otherConn => none
  | .plain c =>
    match c with
    | .tcpConn i a => some (.tcpConn i a)
    | .otherConn => none

/-- `sockstate` socket states as observed by the poller. -/
inductive SockState where
  | broken
  | errorState
  | established
  deriving DecidableEq, Repr

/-- One wake-up of the poller loop: either its context was cancelled or
the timer fired and the subsequent state lookup observed a state. -/
inductive PollObs where
  | ctxDone
  | state (st : SockState)
  deriving DecidableEq, Repr

/-- `tcpCheckerSleepDuration` in seconds. -/
def tcpCheckerSleepDurationSeconds : Nat := 1

/-- The poller's check loop over a finite trace of wake-ups. `none` means
the trace ended without the loop terminating. -/
def pollLoop : List PollObs → Option (Option SErr)
  | [] => none
  | .ctxDone :: _ => some none
  | .state .broken :: _ => some (some .connectionWasClosed)
  | .state .errorState :: _ => some none
  | .state .established :: rest => pollLoop rest

/-- `pollForClosedConnection`: unwrap the transport, obtain the socket
inode and local port, then run the check loop. `some e?` is the poller
returning (with `e?` the error), `none` a trace that ends mid-loop. -/
def pollForClosedConnection (conn : NetConn) (obs : List PollObs) :
    Option (Option SErr) :=
  match maybeGetTCPConn conn with
  | none => some none
  | some raw =>
    match raw with
    | .otherConn => some none
    | .tcpConn inodeResult localTCPAddr =>
      match inodeResult with
      | none => some none
      | some inode =>
        if inode = 0 then some none
        else
          match localTCPAddr with
          | none => some none
          | some _ => pollLoop obs

/-! ## Status flags (`setConnStatusFlags` / `isSessionAutocommit`) -/

/-- A session-variable value, as `GetSessionVariable` returns it. -/
inductive SVal where
  | vBool (b : Bool)
  | vInt (i : Int)
  | vUint (n : Nat)
  | vStr (s : String)
  | vNull
  deriving DecidableEq, Repr

/-- Modelled from the spec: `types.ConvertToBool` turns a session-variable
value into its truthiness (booleans as themselves, numbers by comparison
with zero, the strings "true"/"false" by name), failing on anything
else. -/
def convertToBool : SVal → Except SErr Bool
  | .vBool b => .ok b
  | .vInt i => .ok (decide (i ≠ 0))
  | .vUint n => .ok (decide (n ≠ 0))
  | .vStr s =>
    if s = "true" ∨ s = "1" then .ok true
    else if s = "false" ∨ s = "0" then .ok false
    else .error .convertError
  | .vNull => .error .convertError

/-- The session state `setConnStatusFlags` reads: the `autocommit` session
variable (`none` when the lookup itself errors) and the current
transaction (`GetTransaction`, `none` for nil). -/
structure SSession where
  autocommitVar : Option SVal
  transaction : Option Nat
  deriving DecidableEq, Repr

/-- `isSessionAutocommit`: read the `autocommit` session variable and
convert it to a boolean. -/
def isSessionAutocommit (sess : SSession) : Except SErr Bool :=
  match sess.autocommitVar with
  | none => .error (.genericError 1)
  | some v => convertToBool v

/-- `mysql.ServerStatusAutocommit` (SERVER_STATUS_AUTOCOMMIT). -/
def serverStatusAutocommit : Nat := 2

/-- `mysql.ServerInTransaction` (SERVER_STATUS_IN_TRANS). -/
def serverInTransaction : Nat := 1

/-- Go `^x` on a `uint16`: bitwise complement within 16 bits. -/
def complement16 (x : Nat) : Nat := 65535 ^^^ x

/-- The connection fields the handler touches or could touch: the status
flag bitfield (a `uint16`) plus the other modelled fields, used to state
frame conditions. -/
structure SConn where
  statusFlags : Nat
  connectionID : Nat
  disableClientMultiStatements : Bool
  deriving DecidableEq, Repr

/-- `setConnStatusFlags`: set or clear the autocommit bit from the session
variable, then set or clear the in-transaction bit from the presence of a
transaction. -/
def setConnStatusFlags (sess : SSession) (c : SConn) : Except SErr SConn :=
  match isSessionAutocommit sess with
  | .error e => .error e
  | .ok ok =>
    let f1 :=
      if ok then c.statusFlags ||| serverStatusAutocommit
      else c.statusFlags &&& complement16 serverStatusAutocommit
    let f2 :=
      if (match sess.transaction with | some _ => true | none => false) then
        f1 ||| serverInTransaction
      else f1 &&& complement16 serverInTransaction
    .ok { c with statusFlags := f2 }

/-! ## `doQuery` as an effect trace

`doQuery` is embedded as a function from an environment that fixes the
outcome of every external call and every scheduling race to the ordered
trace of the effects the claims talk about, plus the returned error. -/

/-- The goroutines `doQuery` launches into its errgroup. -/
inductive Goroutine where
  | producer
  | poller
  | consumer
  | joiner
  deriving DecidableEq, Repr

/-- The observable effects of one `doQuery` execution. `endQueryDirect` is
the deferred `ctx.ProcessList.EndQuery` in `doQuery` itself;
`endQueryHook` is the process-entry removal performed by the engine's
iterator when it is first closed (modelled from the spec and the source
comment "Close() kills this PID in the process list"; the engine code is
outside the handler source). -/
inductive Effect where
  | beginQuery
  | endQueryDirect
  | endQueryHook
  | goStart (g : Goroutine)
  | closeIter (g : Goroutine)
  deriving DecidableEq, Repr

/-- How the producer goroutine exits: end-of-stream, an iterator error, or
observing context cancellation. -/
inductive ProducerExit where
  | eof
  | errExit
  | cancelled
  deriving DecidableEq, Repr

/-- Environment of one `doQuery` run: outcomes of the external calls, the
iterator flavor, and the scheduling events each goroutine observes. -/
structure DoQueryEnv where
  newContextOk : Bool
  parseOk : Bool
  bindings : List (String × BindVariable)
  beginQueryOk : Bool
  /-- whether the context `BeginQuery` returns on failure is non-nil
  (external to the handler; on success the returned context is non-nil) -/
  beginCtxNonNil : Bool
  queryNodeOk : Bool
  isRowIter2 : Bool
  producerExit : ProducerExit
  pollerBroken : Bool
  schema : List SColumn
  readTimeout : Nat
  consumerEvents : List CEvent

  setFlagsOk : Bool
  /-- whether the final `callback(r, more)` call at the last return of
  `doQuery` succeeds; its error is returned without being assigned to the
  function-level `err` -/
  finalCallbackOk : Bool

/-- Result of a `doQuery` run: either a return value or a panic (the
consumer's fail-fast on mixed OkResult). -/
inductive DoQueryOutcome where
  | returned (err : Option SErr)
  | panicked
  deriving DecidableEq, Repr

/-- Trace and outcome of one `doQuery` execution. -/
structure DoQueryOut where
  trace : List Effect
  outcome : DoQueryOutcome
  deriving DecidableEq, Repr

/-- The goroutine starts of `doQuery`. -/
def goStarts : List Effect :=
  [.goStart .producer, .goStart .poller, .goStart .consumer, .goStart .joiner]

/-- The iterator-close effects of one pipeline run: the joiner always
closes once; in the `RowIter2` branch the producer additionally closes
when it exits by EOF or error, and the first close fires the modelled
process-entry hook. -/
def closeTrace (env : DoQueryEnv) : List Effect :=
  if env.isRowIter2 && decide (env.producerExit ≠ .cancelled) then
    [.closeIter .producer, .endQueryHook, .closeIter .joiner]
  else
    [.closeIter .joiner, .endQueryHook]

/-- The first error `eg.Wait()` reports, with the model resolving the race
in favour of the consumer, then the producer, then the poller. -/
def egWaitErr (env : DoQueryEnv) : Option SErr :=
  let out := consume env.schema env.readTimeout initConsumerState env.consumerEvents
  let consumerErr : Option SErr :=
    if out.exit = .rowTimeout then some .rowTimeout else none
  let producerErr : Option SErr :=
    if env.producerExit = .errExit then some (.genericError 2) else none
  let pollerErr : Option SErr :=
    if env.pollerBroken then some .connectionWasClosed else none
  (consumerErr.orElse fun _ => producerErr).orElse fun _ => pollerErr

/-- Whether the final callback at the end of `doQuery` is skipped:
`r != nil && (r.RowsAffected == 0 && processedAtLeastOneBatch)`, read off
the consumer's final state. -/
def finalCallbackSkipped (out : ConsumerOut) : Bool :=
  match out.final.r with
  | some r => decide (r.rowsAffected = 0) && out.final.processedAtLeastOneBatch
  | none => false

/-- The part of a `doQuery` run from the goroutine launch on (reached once
`QueryNodeWithBindings` has succeeded). An `eg.Wait()` error and a
`setConnStatusFlags` error are assigned to the function-level `err` before
returning, so the deferred cleanup adds its `EndQuery`; the final
callback's error is returned directly without being assigned, so no
`endQueryDirect` follows it. -/
def pipelineRun (env : DoQueryEnv) : DoQueryOut :=
  let ctxNonNil := env.beginQueryOk || env.beginCtxNonNil
  let out := consume env.schema env.readTimeout initConsumerState env.consumerEvents
  if out.exit = .panicMixed then
    ⟨[.beginQuery] ++ goStarts, .panicked⟩
  else
    match egWaitErr env with
    | some e =>
      ⟨[.beginQuery] ++ goStarts ++ closeTrace env ++
          (if ctxNonNil then [.endQueryDirect] else []),
        .returned (some e)⟩
    | none =>
      if ¬env.setFlagsOk then
        ⟨[.beginQuery] ++ goStarts ++ closeTrace env ++ [.endQueryDirect],
          .returned (some (.genericError 6))⟩
      else if finalCallbackSkipped out || env.finalCallbackOk then
        ⟨[.beginQuery] ++ goStarts ++ closeTrace env, .returned none⟩
      else
        ⟨[.beginQuery] ++ goStarts ++ closeTrace env,
          .returned (some (.genericError 7))⟩

/-- The `doQuery` control flow from `handler.go`, as an effect trace.

Errors before `BeginQuery` (context creation, parsing, bindings) return
before the deferred cleanup exists. `BeginQuery`'s own error is
overwritten by the `:=` on the `QueryNodeWithBindings` line and never
checked. The four goroutines start only after `QueryNodeWithBindings`
succeeds. The producer closes the iterator itself only in the `RowIter2`
branch and only when it exits by EOF or by an iterator error; the joiner
goroutine always closes the iterator after both `wg.Done` calls. The
deferred `EndQuery` fires only when the function-level `err` is non-nil at
return and the current `ctx` is non-nil; the final callback's error is
returned without being assigned to `err`. -/
def doQueryRun (env : DoQueryEnv) : DoQueryOut :=
  if ¬env.newContextOk then ⟨[], .returned (some (.genericError 3))⟩
  else if ¬env.parseOk then ⟨[], .returned (some .parseError)⟩
  else
    let bindingsRes : Except SErr Unit :=
      if env.bindings.length > 0 then
        match bindingsToExprs env.bindings with
        | .error e => .error e
        | .ok _ => .ok ()
      else .ok ()
    match bindingsRes with
    | .error e => ⟨[], .returned (some e)⟩
    | .ok _ =>
      let ctxNonNil := env.beginQueryOk || env.beginCtxNonNil
      if ¬env.queryNodeOk then
        ⟨[.beginQuery] ++ (if ctxNonNil then [.endQueryDirect] else []),
          .returned (some (.genericError 5))⟩
      else
        pipelineRun env

/-- Total number of `EndQuery` effects (direct plus iterator hook). -/
def endQueryCount (t : List Effect) : Nat :=
  t.count .endQueryDirect + t.count .endQueryHook

/-- Number of `rowIter.Close` calls in a trace. -/
def closeCount (t : List Effect) : Nat :=
  (t.filter fun e => match e with | .closeIter _ => true | _ => false).length

/-- Whether any goroutine was started in a trace. -/
def startsGoroutines (t : List Effect) : Bool :=
  t.any fun e => match e with | .goStart _ => true | _ => false

/-- Whether `doQuery` gets past context creation, parsing and bindings and
calls `QueryNodeWithBindings` successfully (this is what gates goroutine
startup in the source; `BeginQuery`'s outcome plays no part). -/
def reachesPipeline (env : DoQueryEnv) : Bool :=
  env.newContextOk && env.parseOk &&
    (env.bindings.length = 0 ||
      (match bindingsToExprs env.bindings with | .ok _ => true | .error _ => false)) &&
    env.queryNodeOk

/-- Whether the function-level `err` of `doQuery` is non-nil when the
deferred cleanup inspects it, for an execution that reached the pipeline:
`eg.Wait()` returned an error or `setConnStatusFlags` failed (both are
assigned to `err` with `=`); the final callback's error is returned
directly and never assigned to `err`. -/
def errAssigned (env : DoQueryEnv) : Bool :=
  (egWaitErr env).isSome || !env.setFlagsOk

/-! ## `ShowProcessList` (sql/plan/processlist.go) -/

/-- A cell of a process-list row. -/
inductive Cell where
  | null
  | str (s : String)
  | int (i : Int)
  deriving DecidableEq, Repr

/-- The `process` record built inside `ShowProcessList.RowIter`. -/
structure ProcessRecord where
  id : Int
  user : String
  host : String
  db : String
  command : String
  time : Int
  state : String
  info : String
  deriving DecidableEq, Repr

/-- `process.toRow`: empty database becomes the NULL cell. -/
def ProcessRecord.toRow (p : ProcessRecord) : List Cell :=
  [ .int p.id
  , .str p.user
  , .str p.host
  , if p.db = "" then .null else .str p.db
  , .str p.command
  , .int p.time
  , .str p.state
  , .str p.info ]

/-- The two engine types used by `processListSchema`. -/
inductive PLType where
  | int64T
  | longTextT
  deriving DecidableEq, Repr

/-- A column of `processListSchema` (the source's column literals leave
`Nullable` at its zero value, `false`). -/
structure PLColumn where
  name : String
  typ : PLType
  nullable : Bool
  deriving DecidableEq, Repr

/-- `processListSchema`. -/
def processListSchema : List PLColumn :=
  [ ⟨"Id", .int64T, false⟩
  , ⟨"User", .longTextT, false⟩
  , ⟨"Host", .longTextT, false⟩
  , ⟨"db", .longTextT, false⟩
  , ⟨"Command", .longTextT, false⟩
  , ⟨"Time", .int64T, false⟩
  , ⟨"State", .longTextT, false⟩
  , ⟨"Info", .longTextT, false⟩ ]

/-- An entry of a process's progress map: the rendered `Progress.String()`
text and the rendered `PartitionProgress.String()` texts of its children
(the renderers live in the engine's `sql` package, outside the handler
source; their outputs are carried as opaque strings). -/
structure SProgress where
  display : String
  partitions : List String
  deriving DecidableEq, Repr

/-- `sql.ProcessCommandQuery`. -/
def processCommandQuery : String := "Query"

/-- One entry of the `ProcessList.Processes()` snapshot. The Go
`map[string]sql.Progress` is embedded as an association list. -/
structure SProcess where
  connection : Nat
  user : String
  host : String
  database : String
  command : String
  seconds : Nat
  progress : List (String × SProgress)
  query : String
  deriving DecidableEq, Repr

/-- Insert into a `≤`-sorted list of strings. -/
def insertSortedStr (x : String) : List String → List String
  | [] => [x]
  | y :: ys => if x ≤ y then x :: y :: ys else y :: insertSortedStr x ys

/-- `sort.Strings`: sort a list of strings lexicographically. -/
def sortStrings (l : List String) : List String :=
  l.foldr insertSortedStr []

/-- Modelled from the spec: `sql.TreePrinter` child lines — one line per
child, the last child marked with a closing branch (the printer lives in
the engine's `sql` package, outside the handler source). -/
def treePrintChildren : List String → String
  | [] => ""
  | [c] => " └─ " ++ c ++ "\n"
  | c :: rest => " ├─ " ++ c ++ "\n" ++ treePrintChildren rest

/-- Modelled from the spec: a tree-printed node with its children. -/
def treePrint (node : String) (children : List String) : String :=
  node ++ "\n" ++ treePrintChildren children

/-- The `State` string computed for one process inside
`ShowProcessList.RowIter`: tree-printed progress reports in sorted
progress-name order, each with its sorted partition-progress children,
defaulting to `"running"` for a query with no progress entries. -/
def processState (proc : SProcess) : String :=
  let names := sortStrings (proc.progress.map Prod.fst)
  let status := names.map fun name =>
    let pr := (proc.progress.lookup name).getD ⟨"", []⟩
    treePrint ("\n" ++ pr.display) (sortStrings pr.partitions)
  let status :=
    if status.length = 0 ∧ proc.command = processCommandQuery then ["running"] else status
  String.join status

/-- `ShowProcessList.RowIter`: one row per snapshot entry. -/
def showProcessListRows (procs : List SProcess) : List (List Cell) :=
  procs.map fun proc =>
    ProcessRecord.toRow
      { id := (proc.connection : Int)
        user := proc.user
        time := (proc.seconds : Int)
        state := processState proc
        command := proc.command
        host := proc.host
        info := proc.query
        db := proc.database }

/-! ### Spec-side rendering of a process (claim C9's description) -/

/-- The row the spec's rendering rules assign to one process: `Id`,
`User`, `Host`, `db` (NULL exactly when the database is empty),
`Command`, `Time`, `State` (the literal `"running"` for a query with no
progress entries, otherwise the concatenation over sorted progress names
of tree-printed reports with sorted children), `Info`. -/
def specProcessRow (proc : SProcess) : List Cell :=
  [ .int (proc.connection : Int)
  , .str proc.user
  , .str proc.host
  , if proc.database = "" then .null else .str proc.database
  , .str proc.command
  , .int (proc.seconds : Int)
  , .str
      (if proc.progress = [] ∧ proc.command = processCommandQuery then "running"
       else
         String.join ((sortStrings (proc.progress.map Prod.fst)).map fun name =>
           treePrint ("\n" ++ ((proc.progress.lookup name).getD ⟨"", []⟩).display)
             (sortStrings ((proc.progress.lookup name).getD ⟨"", []⟩).partitions)))
  , .str proc.query ]

/-! # Theorems -/

/-! ## Helper lemmas -/

theorem pollLoop_append_established (pre rest : List PollObs)
    (h : ∀ o ∈ pre, o = PollObs.state .established) :
    pollLoop (pre ++ rest) = pollLoop rest := by
  induction pre with
  | nil => rfl
  | cons o t ih =>
    have ho := h o (List.mem_cons_self o t)
    subst ho
    simpa [pollLoop] using ih fun o hm => h o (List.mem_cons_of_mem _ hm)

theorem pollLoop_error_characterization (obs : List PollObs) (e : SErr)
    (h : pollLoop obs = some (some e)) :
    e = SErr.connectionWasClosed ∧
      ∃ pre rest, obs = pre ++ PollObs.state .broken :: rest ∧
        ∀ o ∈ pre, o = PollObs.state .established := by
  induction obs with
  | nil => simp [pollLoop] at h
  | cons o t ih =>
    match o with
    | .ctxDone => simp [pollLoop] at h
    | .state .broken =>
      simp [pollLoop] at h
      subst h
      exact ⟨rfl, [], t, rfl, by simp⟩
    | .state .errorState => simp [pollLoop] at h
    | .state .established =>
      have h' : pollLoop t = some (some e) := by simpa [pollLoop] using h
      obtain ⟨he, pre, rest, hsplit, hall⟩ := ih h'
      refine ⟨he, PollObs.state .established :: pre, rest, by simp [hsplit], ?_⟩
      intro o hm
      rcases List.mem_cons.mp hm with h1 | h2
      · exact h1
      · exact hall o h2

/-- C6: `pollForClosedConnection` returns nil immediately for a non-TCP
transport (after one unwrap), and for an unsupported or failed or zero
socket-inode lookup or a non-TCP local address; once polling, its loop
(sleeping `tcpCheckerSleepDuration` = 1 second between checks) returns nil
on context cancellation, the connection-was-closed error exactly when the
observed socket state is Broken, and nil when the state lookup reports an
error. -/
theorem pollForClosedConnection_spec :
    tcpCheckerSleepDurationSeconds = 1 ∧
    (∀ conn obs, maybeGetTCPConn conn = none →
      pollForClosedConnection conn obs = some none) ∧
    (∀ conn inodeRes addr obs,
      maybeGetTCPConn conn = some (.tcpConn inodeRes addr) →
      inodeRes = none ∨ inodeRes = some 0 ∨ addr = none →
      pollForClosedConnection conn obs = some none) ∧
    (∀ conn inode addr obs,
      maybeGetTCPConn conn = some (.tcpConn (some inode) (some addr)) →
      inode ≠ 0 →
      pollForClosedConnection conn obs = pollLoop obs) ∧
    (∀ pre rest, (∀ o ∈ pre, o = PollObs.state .established) →
      pollLoop (pre ++ PollObs.ctxDone :: rest) = some none ∧
      pollLoop (pre ++ PollObs.state .broken :: rest) =
        some (some SErr.connectionWasClosed) ∧
      pollLoop (pre ++ PollObs.state .errorState :: rest) = some none) ∧
    (∀ obs e, pollLoop obs = some (some e) →
      e = SErr.connectionWasClosed ∧
        ∃ pre rest, obs = pre ++ PollObs.state .broken :: rest ∧
          ∀ o ∈ pre, o = PollObs.state .established) := by
  refine ⟨rfl, ?_, ?_, ?_, ?_, pollLoop_error_characterization⟩
  · intro conn obs h
    simp [pollForClosedConnection, h]
  · intro conn inodeRes addr obs h hcase
    rcases hcase with h0 | h0 | h0 <;>
      simp [pollForClosedConnection, h, h0]
    · rcases inodeRes with _ | n
      · simp
      · rcases Nat.eq_zero_or_pos n with h1 | h1
        · simp [h1]
        · simp [Nat.pos_iff_ne_zero.mp h1]
  · intro conn inode addr obs h hne
    simp [pollForClosedConnection, h, hne]
  · intro pre rest hall
    refine ⟨?_, ?_, ?_⟩ <;>
      rw [pollLoop_append_established pre _ hall] <;> rfl

/-- C6 witness: the theorem applied to a non-TCP transport, a wrapped TCP
transport with failed inode lookup, and a polled TCP transport observing
Broken after one Established check. -/
theorem pollForClosedConnection_spec_witness :
    pollForClosedConnection (.plain .otherConn) [] = some none ∧
    pollForClosedConnection (.wrapped (.tcpConn none none)) [.state .broken] = some none ∧
    pollForClosedConnection (.plain (.tcpConn (some 7) (some 3306)))
        [.state .established, .state .broken] =
      some (some SErr.connectionWasClosed) :=
  ⟨pollForClosedConnection_spec.2.1 (.plain .otherConn) [] rfl,
   pollForClosedConnection_spec.2.2.1 (.wrapped (.tcpConn none none)) none none
     [.state .broken] rfl (Or.inl rfl),
   by
    rw [pollForClosedConnection_spec.2.2.2.1 (.plain (.tcpConn (some 7) (some 3306)))
      7 3306 [.state .established, .state .broken] rfl (by decide)]
    exact (pollForClosedConnection_spec.2.2.2.2.1 [.state .established] []
      (by simp)).2.1⟩

/-- C8: after a successful `setConnStatusFlags`, the Autocommit status bit
(bit 1, `ServerStatusAutocommit` = 2) is set iff the session's
`autocommit` variable converts to true, and the InTransaction status bit
(bit 0, `ServerInTransaction` = 1) is set iff the session holds an open
(non-nil) transaction. -/
theorem setConnStatusFlags_bits (sess : SSession) (c c' : SConn)
    (h : setConnStatusFlags sess c = .ok c') :
    (c'.statusFlags.testBit 1 = true ↔ isSessionAutocommit sess = .ok true) ∧
    (c'.statusFlags.testBit 0 = true ↔ sess.transaction ≠ none) := by
  unfold setConnStatusFlags at h
  cases hA : isSessionAutocommit sess with
  | error e => rw [hA] at h; exact absurd h (by simp)
  | ok b =>
    rw [hA] at h
    simp only [Except.ok.injEq] at h
    subst h
    have t21 : Nat.testBit 2 1 = true := by decide
    have t20 : Nat.testBit 2 0 = false := by decide
    have t11 : Nat.testBit 1 1 = false := by decide
    have t10 : Nat.testBit 1 0 = true := by decide
    have u1 : Nat.testBit 65533 1 = false := by decide
    have u0 : Nat.testBit 65533 0 = true := by decide
    have v1 : Nat.testBit 65534 1 = true := by decide
    have v0 : Nat.testBit 65534 0 = false := by decide
    cases b <;> cases htr : sess.transaction <;>
      simp [complement16, serverStatusAutocommit, serverInTransaction,
        Nat.testBit_lor, Nat.testBit_land, t21, t20, t11, t10, u1, u0, v1, v0, hA]

/-- C8 witness: the theorem applied to a session with a true autocommit
variable and an open transaction, on a connection with cleared flags. -/
theorem setConnStatusFlags_bits_witness :
    setConnStatusFlags ⟨some (.vBool true), some 5⟩ ⟨0, 1, false⟩ = .ok ⟨3, 1, false⟩ ∧
    ((3 : Nat).testBit 1 = true ↔
        isSessionAutocommit ⟨some (.vBool true), some 5⟩ = .ok true) ∧
    ((3 : Nat).testBit 0 = true ↔ (⟨some (.vBool true), some 5⟩ : SSession).transaction ≠ none) := by
  refine ⟨rfl, ?_⟩
  exact setConnStatusFlags_bits ⟨some (.vBool true), some 5⟩ ⟨0, 1, false⟩ ⟨3, 1, false⟩ rfl

/-- C10: `setConnStatusFlags` writes only the Autocommit (bit 1) and
InTransaction (bit 0) bits of the 16-bit status flag field: every other
bit keeps its value, and no other connection field is modified. -/
theorem setConnStatusFlags_frame (sess : SSession) (c c' : SConn)
    (h : setConnStatusFlags sess c = .ok c')
    (hbound : c.statusFlags < 2 ^ 16) :
    (∀ i, i ≠ 0 → i ≠ 1 → c'.statusFlags.testBit i = c.statusFlags.testBit i) ∧
    c'.connectionID = c.connectionID ∧
    c'.disableClientMultiStatements = c.disableClientMultiStatements := by
  unfold setConnStatusFlags at h
  cases hA : isSessionAutocommit sess with
  | error e => rw [hA] at h; exact absurd h (by simp)
  | ok b =>
    rw [hA] at h
    simp only [Except.ok.injEq] at h
    subst h
    refine ⟨?_, rfl, rfl⟩
    intro i hi0 hi1
    have hbit2 : Nat.testBit 2 i = false := by
      rw [show (2 : Nat) = 2 ^ 1 by norm_num]
      exact Nat.testBit_two_pow_of_ne (Ne.symm hi1)
    have hbit1 : Nat.testBit 1 i = false := by
      rw [show (1 : Nat) = 2 ^ 0 by norm_num]
      exact Nat.testBit_two_pow_of_ne (Ne.symm hi0)
    have hbit65535 : Nat.testBit 65535 i = decide (i < 16) := by
      rw [show (65535 : Nat) = 2 ^ 16 - 1 by norm_num]
      exact Nat.testBit_two_pow_sub_one 16 i
    have hhigh : ∀ x : Nat, x < 2 ^ 16 → ¬ i < 16 → x.testBit i = false := by
      intro x hx hlt
      exact Nat.testBit_eq_false_of_lt
        (lt_of_lt_of_le hx (Nat.pow_le_pow_right (by norm_num) (Nat.le_of_not_lt hlt)))
    have hmask2 : ∀ x : Nat, x < 2 ^ 16 →
        (x &&& complement16 serverStatusAutocommit).testBit i = x.testBit i := by
      intro x hx
      rw [complement16, serverStatusAutocommit, Nat.testBit_land, Nat.testBit_xor,
        hbit2, hbit65535]
      by_cases hlt : i < 16
      · simp [hlt]
      · simp [hhigh x hx hlt, hlt]
    have hmask1 : ∀ x : Nat, x < 2 ^ 16 →
        (x &&& complement16 serverInTransaction).testBit i = x.testBit i := by
      intro x hx
      rw [complement16, serverInTransaction, Nat.testBit_land, Nat.testBit_xor,
        hbit1, hbit65535]
      by_cases hlt : i < 16
      · simp [hlt]
      · simp [hhigh x hx hlt, hlt]
    have hor2 : ∀ x : Nat, (x ||| serverStatusAutocommit).testBit i = x.testBit i := by
      intro x
      rw [serverStatusAutocommit, Nat.testBit_lor, hbit2]
      simp
    have hor1 : ∀ x : Nat, (x ||| serverInTransaction).testBit i = x.testBit i := by
      intro x
      rw [serverInTransaction, Nat.testBit_lor, hbit1]
      simp
    have hb2 : c.statusFlags &&& complement16 serverStatusAutocommit < 2 ^ 16 :=
      lt_of_le_of_lt Nat.and_le_left hbound
    have hbor : c.statusFlags ||| serverStatusAutocommit < 2 ^ 16 :=
      Nat.or_lt_two_pow hbound (by norm_num [serverStatusAutocommit])
    dsimp only
    split <;> split
    all_goals first
      | rw [hor1, hor2]
      | rw [hor1, hmask2 _ hbound]
      | rw [hmask1 _ hbor, hor2]
      | rw [hmask1 _ hb2, hmask2 _ hbound]

/-- C10 witness: the theorem applied to a session with autocommit false
and no transaction, on a connection with all sixteen flag bits set
(65535 becomes 65532: only bits 0 and 1 change). -/
theorem setConnStatusFlags_frame_witness :
    ((setConnStatusFlags ⟨some (.vBool false), none⟩ ⟨65535, 9, true⟩ = .ok ⟨65532, 9, true⟩) ∧
      (65535 : Nat) < 2 ^ 16) ∧
    (∀ i, i ≠ 0 → i ≠ 1 → (65532 : Nat).testBit i = (65535 : Nat).testBit i) := by
  refine ⟨⟨by decide, by norm_num⟩, ?_⟩
  exact (setConnStatusFlags_frame ⟨some (.vBool false), none⟩ ⟨65535, 9, true⟩ ⟨65532, 9, true⟩
    (by decide) (by norm_num)).1

theorem length_insertSortedStr (x : String) (l : List String) :
    (insertSortedStr x l).length = l.length + 1 := by
  induction l with
  | nil => rfl
  | cons y ys ih =>
    unfold insertSortedStr
    split
    · simp
    · simp [ih]

theorem length_sortStrings (l : List String) :
    (sortStrings l).length = l.length := by
  induction l with
  | nil => rfl
  | cons x xs ih =>
    unfold sortStrings at ih ⊢
    simp [length_insertSortedStr, ih]

theorem processState_eq_spec (proc : SProcess) :
    processState proc =
      (if proc.progress = [] ∧ proc.command = processCommandQuery then "running"
       else
         String.join ((sortStrings (proc.progress.map Prod.fst)).map fun name =>
           treePrint ("\n" ++ ((proc.progress.lookup name).getD ⟨"", []⟩).display)
             (sortStrings ((proc.progress.lookup name).getD ⟨"", []⟩).partitions))) := by
  unfold processState
  by_cases hp : proc.progress = []
  · by_cases hc : proc.command = processCommandQuery
    · simp only [hp, hc, sortStrings, List.map_nil, List.foldr_nil, List.length_nil,
        and_self, if_true]
      rfl
    · simp [hp, hc, sortStrings]
  · have hlen : ((sortStrings (proc.progress.map Prod.fst)).map fun name =>
        treePrint ("\n" ++ ((proc.progress.lookup name).getD ⟨"", []⟩).display)
          (sortStrings ((proc.progress.lookup name).getD ⟨"", []⟩).partitions)).length
        = proc.progress.length := by
      rw [List.length_map, length_sortStrings, List.length_map]
    have hne : proc.progress.length ≠ 0 := fun h => hp (List.length_eq_zero.mp h)
    simp only [hlen, hne, false_and, if_false, hp, if_neg (by simp [hp] : ¬(proc.progress = [] ∧ proc.command = processCommandQuery))]

/-- C9: `ShowProcessList.RowIter` produces one row per snapshot process
with columns Id (Int64), User, Host, db (LongText, NULL exactly when the
database is empty), Command, Time (Int64), State and Info, where State is
the literal "running" for a Query-command process with no progress
entries and otherwise the concatenation, in sorted progress-name order, of
tree-printed progress reports with their sorted partition children. -/
theorem showProcessList_spec :
    (processListSchema.map fun c => (c.name, c.typ)) =
      [("Id", PLType.int64T), ("User", .longTextT), ("Host", .longTextT),
       ("db", .longTextT), ("Command", .longTextT), ("Time", .int64T),
       ("State", .longTextT), ("Info", .longTextT)] ∧
    ∀ procs : List SProcess, showProcessListRows procs = procs.map specProcessRow := by
  refine ⟨rfl, ?_⟩
  intro procs
  unfold showProcessListRows
  apply List.map_congr_left
  intro proc _
  unfold ProcessRecord.toRow specProcessRow
  simp only [processState_eq_spec]

theorem coerceBindVar_type (v : BindVariable) (lit : Literal)
    (h : coerceBindVar v = .ok lit) :
    v.typ.isListed = true ∧ lit.typ = specTableType v.typ v.value.length := by
  rcases v with ⟨t, s⟩
  refine ⟨?_, ?_⟩
  · cases t <;>
      first
        | rfl
        | (exfalso
           simp [coerceBindVar, WireType.isSigned, WireType.isUnsigned, WireType.isFloat] at h)
  · cases t <;>
      simp [coerceBindVar, WireType.isSigned, WireType.isUnsigned, WireType.isFloat] at h <;>
      first
        | (split at h <;>
            simp_all [specTableType, WireType.isSigned, WireType.isUnsigned, WireType.isFloat] <;>
            rw [← h])
        | (simp_all [specTableType, WireType.isSigned, WireType.isUnsigned, WireType.isFloat] <;>
            rw [← h])
        | simp_all [specTableType, WireType.isSigned, WireType.isUnsigned, WireType.isFloat]
        | rw [← h]

theorem coerceBindVar_unlisted (v : BindVariable) (h : v.typ.isListed = false) :
    coerceBindVar v = .error .unsupportedOperation := by
  rcases v with ⟨t, s⟩
  cases t <;>
    first
      | rfl
      | (exfalso
         simp [WireType.isListed, WireType.isSigned, WireType.isUnsigned,
           WireType.isFloat] at h)

theorem bindingsToExprs_error_propagates (bindings : List (String × BindVariable))
    (k : String) (v : BindVariable) (e : SErr)
    (hmem : (k, v) ∈ bindings) (herr : coerceBindVar v = .error e) :
    ∃ e', bindingsToExprs bindings = .error e' := by
  induction bindings with
  | nil => simp at hmem
  | cons hd tl ih =>
    rcases List.mem_cons.mp hmem with heq | htl
    · obtain ⟨k', v'⟩ := hd
      obtain ⟨hk, hv⟩ := Prod.mk.injEq .. ▸ heq
      subst hv
      exact ⟨e, by simp [bindingsToExprs, herr]⟩
    · obtain ⟨k', v'⟩ := hd
      cases hc : coerceBindVar v' with
      | error e'' => exact ⟨e'', by simp [bindingsToExprs, hc]⟩
      | ok lit =>
        obtain ⟨e', he'⟩ := ih htl
        exact ⟨e', by simp [bindingsToExprs, hc, he']⟩

/-- C3: `bindingsToExprs` maps each binding name to a literal whose type
is the one tabulated in §4.A for the binding's wire type and byte length;
a bind variable of any unlisted wire type coerces to the
UnsupportedOperation error, and any per-value coercion failure aborts the
whole conversion with an error. -/
theorem bindingsToExprs_spec :
    (∀ bindings res, bindingsToExprs bindings = .ok res →
      List.Forall₂ (fun (kv : String × BindVariable) (kl : String × Literal) =>
        kv.1 = kl.1 ∧ coerceBindVar kv.2 = .ok kl.2 ∧
          kl.2.typ = specTableType kv.2.typ kv.2.value.length) bindings res) ∧
    (∀ v : BindVariable, v.typ.isListed = false →
      coerceBindVar v = .error .unsupportedOperation) ∧
    (∀ bindings (k : String) (v : BindVariable) (e : SErr), (k, v) ∈ bindings →
      coerceBindVar v = .error e →
      ∃ e', bindingsToExprs bindings = .error e') := by
  refine ⟨?_, coerceBindVar_unlisted, bindingsToExprs_error_propagates⟩
  intro bindings
  induction bindings with
  | nil =>
    intro res h
    simp [bindingsToExprs] at h
    subst h
    exact List.Forall₂.nil
  | cons hd tl ih =>
    intro res h
    obtain ⟨k, v⟩ := hd
    unfold bindingsToExprs at h
    cases hc : coerceBindVar v with
    | error e => rw [hc] at h; exact absurd h (by simp)
    | ok lit =>
      rw [hc] at h
      cases hr : bindingsToExprs tl with
      | error e => rw [hr] at h; exact absurd h (by simp)
      | ok res' =>
        rw [hr] at h
        simp only [Except.ok.injEq] at h
        subst h
        exact List.Forall₂.cons ⟨rfl, hc, (coerceBindVar_type v lit hc).2⟩ (ih res' hr)

/-- C3 witness: the theorem applied to the bindings of scenario S4
(an Int32 "42" and a VarChar "hi"), to a Geometry-typed bind variable,
and to a bindings list containing the Geometry-typed variable. -/
theorem bindingsToExprs_spec_witness :
    (bindingsToExprs [("a", ⟨.int32, "42"⟩), ("b", ⟨.varchar, "hi"⟩)] =
        .ok [("a", ⟨.vInt 42, .int64T⟩), ("b", ⟨.vStr "hi", .stringT .varchar 2⟩)] ∧
      List.Forall₂ (fun (kv : String × BindVariable) (kl : String × Literal) =>
        kv.1 = kl.1 ∧ coerceBindVar kv.2 = .ok kl.2 ∧
          kl.2.typ = specTableType kv.2.typ kv.2.value.length)
        [("a", ⟨.int32, "42"⟩), ("b", ⟨.varchar, "hi"⟩)]
        [("a", ⟨.vInt 42, .int64T⟩), ("b", ⟨.vStr "hi", .stringT .varchar 2⟩)]) ∧
    coerceBindVar ⟨.geometry, ""⟩ = .error .unsupportedOperation ∧
    ∃ e', bindingsToExprs [("g", ⟨.geometry, ""⟩)] = .error e' := by
  refine ⟨⟨by decide, ?_⟩, ?_, ?_⟩
  · exact bindingsToExprs_spec.1 _ _ (by decide)
  · exact bindingsToExprs_spec.2.1 ⟨.geometry, ""⟩ (by decide)
  · exact bindingsToExprs_spec.2.2 [("g", ⟨.geometry, ""⟩)] "g" ⟨.geometry, ""⟩
      .unsupportedOperation (by simp) (by decide)

theorem preSelect_of_full {schema : List SColumn} {s : ConsumerState}
    (h : (s.r.getD (freshResult schema)).rowsAffected = rowsBatch) :
    preSelect schema s =
      ⟨some (freshResult schema), true,
        s.batches ++ [s.r.getD (freshResult schema)], s.timerResets⟩ := by
  simp only [preSelect]
  rw [if_pos h]

theorem preSelect_of_notfull {schema : List SColumn} {s : ConsumerState}
    (h : ¬ (s.r.getD (freshResult schema)).rowsAffected = rowsBatch) :
    preSelect schema s = { s with r := some (s.r.getD (freshResult schema)) } := by
  simp only [preSelect]
  rw [if_neg h]

/-- Running the consumer on a stream of data rows from any well-formed
state: the exit is channel-closed, each received row bumps the timer
reset count, the flushed batches all hold exactly `rowsBatch` rows and
there are `(existing + received) / rowsBatch` of them, and the final batch
holds `(existing + received) % rowsBatch` rows. -/
theorem consume_cons_dataRow (schema : List SColumn) (rt : Nat) (s : ConsumerState)
    (cs : List WireCell) (evs : List CEvent) :
    consume schema rt s (CEvent.recv (SRow.dataRow cs) :: evs) =
      consume schema rt (afterDataRow schema s cs) evs := by
  simp only [consume, afterDataRow]

theorem afterDataRow_of_full {schema : List SColumn} {s : ConsumerState}
    (cs : List WireCell)
    (h : (s.r.getD (freshResult schema)).rowsAffected = rowsBatch) :
    afterDataRow schema s cs =
      ⟨some ⟨schemaToFields schema, [rowToSQL schema cs], 1, 0, ""⟩,
        true, s.batches ++ [s.r.getD (freshResult schema)], s.timerResets + 1⟩ := by
  simp only [afterDataRow, preSelect_of_full h]
  simp [freshResult]

theorem afterDataRow_of_notfull {schema : List SColumn} {s : ConsumerState}
    (cs : List WireCell)
    (h : ¬ (s.r.getD (freshResult schema)).rowsAffected = rowsBatch) :
    afterDataRow schema s cs =
      ⟨some { s.r.getD (freshResult schema) with
                rows := (s.r.getD (freshResult schema)).rows ++ [rowToSQL schema cs]
                rowsAffected := (s.r.getD (freshResult schema)).rowsAffected + 1 },
        s.processedAtLeastOneBatch, s.batches, s.timerResets + 1⟩ := by
  simp only [afterDataRow, preSelect_of_notfull h]
  simp

/-- Running the consumer on a stream of data rows from any well-formed
state: the exit is channel-closed, each received row bumps the timer
reset count, the flushed batches all hold exactly `rowsBatch` rows and
there are `(existing + received) / rowsBatch` of them, and the final batch
holds `(existing + received) % rowsBatch` rows. -/
theorem consume_dataRows (schema : List SColumn) (rt : Nat) :
    ∀ (rows : List (List WireCell)) (s : ConsumerState),
      (s.r.getD (freshResult schema)).rowsAffected =
        (s.r.getD (freshResult schema)).rows.length →
      (s.r.getD (freshResult schema)).rowsAffected ≤ rowsBatch →
      ∃ rfin newBatches,
        consume schema rt s (rows.map fun cs => CEvent.recv (SRow.dataRow cs)) =
          ⟨.channelClosed,
            ⟨some rfin,
             s.processedAtLeastOneBatch ||
               decide (rowsBatch ≤
                 (s.r.getD (freshResult schema)).rowsAffected + rows.length),
             s.batches ++ newBatches,
             s.timerResets + rows.length⟩⟩ ∧
        rfin.rowsAffected =
          ((s.r.getD (freshResult schema)).rowsAffected + rows.length) % rowsBatch ∧
        rfin.rows.length = rfin.rowsAffected ∧
        newBatches.length =
          ((s.r.getD (freshResult schema)).rowsAffected + rows.length) / rowsBatch ∧
        ∀ b ∈ newBatches, b.rows.length = rowsBatch := by
  intro rows
  induction rows with
  | nil =>
    intro s hinv hle
    by_cases h128 : (s.r.getD (freshResult schema)).rowsAffected = rowsBatch
    · refine ⟨freshResult schema, [s.r.getD (freshResult schema)], ?_, ?_, rfl, ?_, ?_⟩
      · simp only [List.map_nil, consume, preSelect_of_full h128]
        have h' : rowsBatch ≤ (s.r.getD (freshResult schema)).rowsAffected := h128.ge
        simp [h']
      · rw [h128]
        simp [freshResult, rowsBatch]
      · rw [h128]
        norm_num [rowsBatch]
      · intro b hb
        simp only [List.mem_singleton] at hb
        subst hb
        rw [← hinv, h128]
    · have hlt : (s.r.getD (freshResult schema)).rowsAffected < rowsBatch := by omega
      refine ⟨s.r.getD (freshResult schema), [], ?_, ?_, hinv.symm, ?_, by simp⟩
      · simp only [List.map_nil, consume, preSelect_of_notfull h128]
        have hn : ¬ rowsBatch ≤ (s.r.getD (freshResult schema)).rowsAffected := by omega
        simp [hn]
      · simp [Nat.mod_eq_of_lt hlt]
      · simp [Nat.div_eq_of_lt hlt]
  | cons cs rest ih =>
    intro s hinv hle
    rw [List.map_cons, consume_cons_dataRow]
    by_cases h128 : (s.r.getD (freshResult schema)).rowsAffected = rowsBatch
    · rw [afterDataRow_of_full cs h128]
      obtain ⟨rfin, nb, heq, hRA, hlen, hcount, hmem⟩ :=
        ih ⟨some ⟨schemaToFields schema, [rowToSQL schema cs], 1, 0, ""⟩,
            true, s.batches ++ [s.r.getD (freshResult schema)], s.timerResets + 1⟩
          (by simp) (by simp [rowsBatch])
      simp only [Option.getD_some] at hRA hcount
      refine ⟨rfin, s.r.getD (freshResult schema) :: nb, ?_, ?_, hlen, ?_, ?_⟩
      · rw [heq]
        have hge : rowsBatch ≤
            (s.r.getD (freshResult schema)).rowsAffected + (cs :: rest).length := by
          rw [h128]
          exact Nat.le_add_right _ _
        simp [hge]
        omega
      · rw [hRA, h128]
        simp only [List.length_cons, rowsBatch]
        omega
      · rw [List.length_cons, hcount, h128]
        simp only [List.length_cons, rowsBatch]
        omega
      · intro b hb
        rcases List.mem_cons.mp hb with h1 | h2
        · subst h1
          rw [← hinv, h128]
        · exact hmem b h2
    · rw [afterDataRow_of_notfull cs h128]
      obtain ⟨rfin, nb, heq, hRA, hlen, hcount, hmem⟩ :=
        ih ⟨some { s.r.getD (freshResult schema) with
                    rows := (s.r.getD (freshResult schema)).rows ++ [rowToSQL schema cs]
                    rowsAffected := (s.r.getD (freshResult schema)).rowsAffected + 1 },
            s.processedAtLeastOneBatch, s.batches, s.timerResets + 1⟩
          (by simp [hinv]) (by simp; omega)
      simp only [Option.getD_some] at hRA hcount
      refine ⟨rfin, nb, ?_, ?_, hlen, ?_, hmem⟩
      · rw [heq]
        simp [ConsumerOut.mk.injEq, ConsumerState.mk.injEq, Nat.add_assoc,
          Nat.add_comm, Nat.add_left_comm]
      · rw [hRA]
        simp only [List.length_cons]
        congr 1
        omega
      · rw [hcount]
        simp only [List.length_cons]
        congr 1
        omega

/-- C1: for a finite stream of N ordinary data rows (callback and cell
conversion succeeding throughout, as the model builds in), the callback
sequence of `doQuery` delivers batches of exactly `rowsBatch` = 128 rows
except the last, which holds N mod 128 rows (128 when N is a positive
multiple of 128), for ⌈N/128⌉ invocations in total when N > 0; when N = 0
there is exactly one invocation, carrying zero rows and the fields built
from the schema. -/
theorem doQuery_batching (schema : List SColumn) (rt : Nat)
    (rows : List (List WireCell)) :
    (doQueryDelivered schema rt (rows.map SRow.dataRow)).map batchSize =
      (if rows.length = 0 then [0]
       else List.replicate (rows.length / rowsBatch) rowsBatch ++
         (if rows.length % rowsBatch = 0 then [] else [rows.length % rowsBatch])) ∧
    (doQueryDelivered schema rt (rows.map SRow.dataRow)).length =
      (if rows.length = 0 then 1
       else (rows.length + (rowsBatch - 1)) / rowsBatch) ∧
    (rows.length = 0 →
      doQueryDelivered schema rt (rows.map SRow.dataRow) = [some (freshResult schema)]) ∧
    (freshResult schema).fields = schemaToFields schema ∧
    (freshResult schema).rows = [] := by
  by_cases hN : rows.length = 0
  · have hrows : rows = [] := List.length_eq_zero.mp hN
    subst hrows
    refine ⟨?_, ?_, fun _ => ?_, rfl, rfl⟩ <;>
      simp [doQueryDelivered, runConsumer, consume, preSelect, doQueryCallbacks,
        initConsumerState, freshResult, rowsBatch, batchSize]
  · obtain ⟨rfin, nb, heq, hRA, hlen, hcount, hmem⟩ :=
      consume_dataRows schema rt rows initConsumerState
        (by simp [initConsumerState, freshResult])
        (by simp [initConsumerState, freshResult, rowsBatch])
    simp only [initConsumerState, Option.getD_none] at heq hRA hcount
    have hfresh0 : (freshResult schema).rowsAffected = 0 := rfl
    simp only [hfresh0] at heq hRA hcount
    simp only [Nat.zero_add, Bool.false_or, List.nil_append] at heq hRA hcount
    have hmm : (rows.map SRow.dataRow).map CEvent.recv =
        rows.map fun cs => CEvent.recv (SRow.dataRow cs) := by
      rw [List.map_map]
      rfl
    by_cases h0 : rows.length % rowsBatch = 0
    · have hge : rowsBatch ≤ rows.length := by
        rcases Nat.lt_or_ge rows.length rowsBatch with hlt | hge
        · exfalso
          rw [Nat.mod_eq_of_lt hlt] at h0
          exact hN h0
        · exact hge
      have hRA0 : rfin.rowsAffected = 0 := by rw [hRA, h0]
      have hdel : doQueryDelivered schema rt (rows.map SRow.dataRow) = nb.map some := by
        unfold doQueryDelivered runConsumer
        simp only [initConsumerState]
        rw [hmm, heq]
        simp [doQueryCallbacks, hRA0, hge]
      refine ⟨?_, ?_, fun h => absurd h hN, rfl, rfl⟩
      · rw [hdel, List.map_map, if_neg hN, if_pos h0, List.append_nil]
        refine List.eq_replicate.mpr ⟨?_, ?_⟩
        · simp [hcount]
        · intro x hx
          obtain ⟨b, hb, hxb⟩ := List.mem_map.mp hx
          rw [← hxb]
          exact hmem b hb
      · rw [hdel, List.length_map, if_neg hN, hcount]
        simp only [rowsBatch] at h0 ⊢
        omega
    · have hRAne : ¬ rfin.rowsAffected = 0 := by
        rw [hRA]
        exact h0
      have hdel : doQueryDelivered schema rt (rows.map SRow.dataRow) =
          nb.map some ++ [some rfin] := by
        unfold doQueryDelivered runConsumer
        simp only [initConsumerState]
        rw [hmm, heq]
        simp [doQueryCallbacks, hRAne]
      refine ⟨?_, ?_, fun h => absurd h hN, rfl, rfl⟩
      · rw [hdel, List.map_append, List.map_map, if_neg hN, if_neg h0]
        have h1 : List.map (batchSize ∘ some) nb =
            List.replicate (rows.length / rowsBatch) rowsBatch := by
          refine List.eq_replicate.mpr ⟨?_, ?_⟩
          · simp [hcount]
          · intro x hx
            obtain ⟨b, hb, hxb⟩ := List.mem_map.mp hx
            rw [← hxb]
            exact hmem b hb
        have h2 : List.map batchSize [some rfin] = [rows.length % rowsBatch] := by
          simp [batchSize, hlen, hRA]
        rw [h1, h2]
      · rw [hdel, List.length_append, List.length_map, if_neg hN, hcount]
        simp only [List.length_cons, List.length_nil, rowsBatch] at h0 ⊢
        omega

/-- C1 witness: the theorem applied to the empty row stream over the
empty schema, discharging the N = 0 hypothesis. -/
theorem doQuery_batching_witness :
    ([] : List (List WireCell)).length = 0 ∧
    doQueryDelivered [] 0 (([] : List (List WireCell)).map SRow.dataRow) =
      [some (freshResult [])] :=
  ⟨rfl, (doQuery_batching [] 0 []).2.2.1 rfl⟩

theorem consume_okRow_empty (schema : List SColumn) (rt : Nat) (s : ConsumerState)
    (ok : OkResult) (rest : List CEvent)
    (hra : (s.r.getD (freshResult schema)).rowsAffected ≠ rowsBatch)
    (hrows : (s.r.getD (freshResult schema)).rows = []) :
    consume schema rt s (CEvent.recv (SRow.okRow ok) :: rest) =
      consume schema rt { s with r := some (resultFromOkResult ok) } rest := by
  simp only [consume, preSelect_of_notfull hra]
  simp [hrows]

theorem consume_okRow_mixed (schema : List SColumn) (rt : Nat) (s : ConsumerState)
    (ok : OkResult) (rest : List CEvent)
    (hra : (s.r.getD (freshResult schema)).rowsAffected ≠ rowsBatch)
    (hrows : (s.r.getD (freshResult schema)).rows ≠ []) :
    consume schema rt s (CEvent.recv (SRow.okRow ok) :: rest) =
      ⟨.panicMixed, { s with r := some (s.r.getD (freshResult schema)) }⟩ := by
  simp only [consume, preSelect_of_notfull hra]
  have hpos : (s.r.getD (freshResult schema)).rows.length > 0 := List.length_pos.mpr hrows
  simp [hpos]

/-- C5 counterexample: an OkResult followed by a data row in the same
batch is not detected: the consumer exits normally and a mixed result —
RowsAffected and InsertID from the OkResult plus an appended row vector —
is delivered to the callback. -/
theorem okResult_mixing_counterexample :
    (runConsumer [⟨"c", 0, false, 0, fun v => v⟩] 0
        [CEvent.recv (SRow.okRow ⟨7, 42, none⟩),
         CEvent.recv (SRow.dataRow [some "x"])]).exit = .channelClosed ∧
    doQueryCallbacks (runConsumer [⟨"c", 0, false, 0, fun v => v⟩] 0
        [CEvent.recv (SRow.okRow ⟨7, 42, none⟩),
         CEvent.recv (SRow.dataRow [some "x"])]) =
      [some ⟨[], [[some "x"]], 8, 42, ""⟩] := by
  constructor <;> rfl

/-- C5 (amended): an OkResult row received into a batch with no data rows
replaces the batch entirely with a result carrying the OkResult's
RowsAffected, InsertID and Info string and no rows, and a lone OkResult
stream delivers exactly that result; an OkResult received after data rows
in the same batch is detected fail-fast (panic), but the converse mix — a
data row arriving after an OkResult — is not detected. -/
theorem okResult_spec :
    (∀ (schema : List SColumn) (rt : Nat) (ok : OkResult),
      doQueryDelivered schema rt [SRow.okRow ok] = [some (resultFromOkResult ok)]) ∧
    (∀ ok : OkResult,
      (resultFromOkResult ok).rows = [] ∧
      (resultFromOkResult ok).rowsAffected = ok.rowsAffected ∧
      (resultFromOkResult ok).insertID = ok.insertID ∧
      (resultFromOkResult ok).info = ok.info.getD "" ∧
      (resultFromOkResult ok).fields = []) ∧
    (∀ (schema : List SColumn) (rt : Nat) (s : ConsumerState) (ok : OkResult)
        (rest : List CEvent),
      (s.r.getD (freshResult schema)).rowsAffected ≠ rowsBatch →
      (s.r.getD (freshResult schema)).rows = [] →
      consume schema rt s (CEvent.recv (SRow.okRow ok) :: rest) =
        consume schema rt { s with r := some (resultFromOkResult ok) } rest) ∧
    (∀ (schema : List SColumn) (rt : Nat) (s : ConsumerState) (ok : OkResult)
        (rest : List CEvent),
      (s.r.getD (freshResult schema)).rowsAffected ≠ rowsBatch →
      (s.r.getD (freshResult schema)).rows ≠ [] →
      consume schema rt s (CEvent.recv (SRow.okRow ok) :: rest) =
        ⟨.panicMixed, { s with r := some (s.r.getD (freshResult schema)) }⟩) := by
  refine ⟨?_, fun ok => ⟨rfl, rfl, rfl, rfl, rfl⟩, consume_okRow_empty, consume_okRow_mixed⟩
  intro schema rt ok
  unfold doQueryDelivered runConsumer
  simp only [List.map_cons, List.map_nil]
  rw [consume_okRow_empty schema rt initConsumerState ok []
    (by simp [initConsumerState, freshResult, rowsBatch])
    (by simp [initConsumerState, freshResult])]
  by_cases hok : (resultFromOkResult ok).rowsAffected = rowsBatch
  · rw [show consume schema rt
        { initConsumerState with r := some (resultFromOkResult ok) } [] =
        ⟨.channelClosed, preSelect schema
          { initConsumerState with r := some (resultFromOkResult ok) }⟩ from rfl]
    rw [preSelect_of_full (by simpa using hok)]
    simp [doQueryCallbacks, initConsumerState, freshResult]
  · rw [show consume schema rt
        { initConsumerState with r := some (resultFromOkResult ok) } [] =
        ⟨.channelClosed, preSelect schema
          { initConsumerState with r := some (resultFromOkResult ok) }⟩ from rfl]
    rw [preSelect_of_notfull (by simpa using hok)]
    simp [doQueryCallbacks, initConsumerState]

/-- C5 witness: the amended theorem applied to scenario S7's OkResult
(RowsAffected 7, InsertID 42) as a lone stream row, and to the fail-fast
case of a data row preceding the OkResult. -/
theorem okResult_spec_witness :
    doQueryDelivered [] 0 [SRow.okRow ⟨7, 42, none⟩] =
      [some (resultFromOkResult ⟨7, 42, none⟩)] ∧
    consume [] 0 ⟨some ⟨[], [[some "x"]], 1, 0, ""⟩, false, [], 1⟩
        [CEvent.recv (SRow.okRow ⟨7, 42, none⟩)] =
      ⟨.panicMixed, ⟨some ⟨[], [[some "x"]], 1, 0, ""⟩, false, [], 1⟩⟩ := by
  constructor
  · exact okResult_spec.1 [] 0 ⟨7, 42, none⟩
  · have h := okResult_spec.2.2.2 [] 0 ⟨some ⟨[], [[some "x"]], 1, 0, ""⟩, false, [], 1⟩
      ⟨7, 42, none⟩ [] (by decide) (by decide)
    simpa using h

theorem pipelineRun_trace_head (env : DoQueryEnv) :
    ∃ rest, (pipelineRun env).trace = Effect.beginQuery :: rest := by
  unfold pipelineRun
  dsimp only
  split
  · exact ⟨_, rfl⟩
  · split
    · exact ⟨_, rfl⟩
    · split
      · exact ⟨_, rfl⟩
      · split
        · exact ⟨_, rfl⟩
        · exact ⟨_, rfl⟩

theorem doQueryRun_trace_head (env : DoQueryEnv) :
    (doQueryRun env).trace = [] ∨
      ∃ rest, (doQueryRun env).trace = Effect.beginQuery :: rest := by
  unfold doQueryRun
  by_cases hctx : env.newContextOk = true
  case neg => exact Or.inl (by simp [hctx])
  by_cases hparse : env.parseOk = true
  case neg => exact Or.inl (by simp [hctx, hparse])
  rw [if_neg (by simp [hctx]), if_neg (by simp [hparse])]
  by_cases hl : env.bindings.length > 0
  · rcases hb : bindingsToExprs env.bindings with e | res
    · exact Or.inl (by simp [hl, hb])
    · simp only [if_pos hl, hb]
      by_cases hnode : env.queryNodeOk = true
      · rw [if_neg (by simp [hnode])]
        exact Or.inr (pipelineRun_trace_head env)
      · rw [if_pos (by simp [hnode])]
        exact Or.inr ⟨_, rfl⟩
  · simp only [if_neg hl]
    by_cases hnode : env.queryNodeOk = true
    · rw [if_neg (by simp [hnode])]
      exact Or.inr (pipelineRun_trace_head env)
    · rw [if_pos (by simp [hnode])]
      exact Or.inr ⟨_, rfl⟩

theorem closeCount_append (a b : List Effect) :
    closeCount (a ++ b) = closeCount a + closeCount b := by
  simp [closeCount, List.filter_append]

theorem endQueryCount_append (a b : List Effect) :
    endQueryCount (a ++ b) = endQueryCount a + endQueryCount b := by
  simp [endQueryCount, List.count_append]
  omega

theorem closeTrace_closeCount (env : DoQueryEnv) :
    closeCount (closeTrace env) =
      (if env.isRowIter2 && decide (env.producerExit ≠ .cancelled) then 2 else 1) := by
  unfold closeTrace
  split <;> rfl

theorem closeTrace_endQueryCount (env : DoQueryEnv) :
    endQueryCount (closeTrace env) = 1 := by
  unfold closeTrace
  split <;> rfl

theorem pipelineRun_startsGoroutines (env : DoQueryEnv) :
    startsGoroutines (pipelineRun env).trace = true := by
  unfold pipelineRun
  dsimp only
  split
  · rfl
  · split
    · simp [startsGoroutines, goStarts, List.any_append]
    · split
      · simp [startsGoroutines, goStarts, List.any_append]
      · split
        · simp [startsGoroutines, goStarts, List.any_append]
        · simp [startsGoroutines, goStarts, List.any_append]

/-- The close and `EndQuery` counts of a non-panicking `pipelineRun`:
`EndQuery` runs twice exactly when the returned error was assigned to
`err` (an `eg.Wait` or `setConnStatusFlags` error), once otherwise — in
particular once when only the final callback fails. -/
theorem pipelineRun_counts (env : DoQueryEnv) (e : Option SErr)
    (hbq : env.beginQueryOk = true)
    (hout : (pipelineRun env).outcome = .returned e) :
    closeCount (pipelineRun env).trace =
      (if env.isRowIter2 && decide (env.producerExit ≠ .cancelled) then 2 else 1) ∧
    endQueryCount (pipelineRun env).trace = (if errAssigned env then 2 else 1) := by
  have hed1 : closeCount [Effect.endQueryDirect] = 0 := rfl
  have hed2 : endQueryCount [Effect.endQueryDirect] = 1 := rfl
  have hc : closeCount (closeTrace env) =
      if env.isRowIter2 && decide (env.producerExit ≠ .cancelled) then 2 else 1 :=
    closeTrace_closeCount env
  unfold pipelineRun at hout ⊢
  unfold errAssigned
  dsimp only at hout ⊢
  by_cases hpx : (consume env.schema env.readTimeout initConsumerState
      env.consumerEvents).exit = .panicMixed
  · rw [if_pos hpx] at hout
    exact absurd hout (by simp)
  · rw [if_neg hpx] at hout ⊢
    rcases heg : egWaitErr env with _ | err
    · simp only [heg] at hout ⊢
      by_cases hsf : env.setFlagsOk = true
      · rw [if_neg (by simp [hsf])]
        have he : endQueryCount (closeTrace env) =
            if (none : Option SErr).isSome || !env.setFlagsOk then 2 else 1 := by
          rw [closeTrace_endQueryCount, hsf]
          simp
        constructor
        · split
          · exact hc
          · exact hc
        · split
          · exact he
          · exact he
      · have hsf' : env.setFlagsOk = false := by
          cases h : env.setFlagsOk
          · rfl
          · exact absurd h hsf
        rw [if_pos (by simp [hsf])]
        constructor
        · show closeCount (closeTrace env ++ [Effect.endQueryDirect]) =
            if env.isRowIter2 && decide (env.producerExit ≠ .cancelled) then 2 else 1
          rw [closeCount_append, closeTrace_closeCount, hed1]
          rw [Nat.add_zero]
        · show endQueryCount (closeTrace env ++ [Effect.endQueryDirect]) =
            if (none : Option SErr).isSome || !env.setFlagsOk then 2 else 1
          rw [endQueryCount_append, closeTrace_endQueryCount, hed2, hsf']
          simp
    · simp only [heg] at hout ⊢
      rw [if_pos (by simp [hbq] : (env.beginQueryOk || env.beginCtxNonNil) = true)]
      constructor
      · show closeCount (closeTrace env ++ [Effect.endQueryDirect]) =
          if env.isRowIter2 && decide (env.producerExit ≠ .cancelled) then 2 else 1
        rw [closeCount_append, closeTrace_closeCount, hed1]
        rw [Nat.add_zero]
      · show endQueryCount (closeTrace env ++ [Effect.endQueryDirect]) =
          if (some err).isSome || !env.setFlagsOk then 2 else 1
        rw [endQueryCount_append, closeTrace_endQueryCount, hed2]
        simp

theorem doQueryRun_startsGoroutines_iff (env : DoQueryEnv) :
    startsGoroutines (doQueryRun env).trace = reachesPipeline env := by
  unfold doQueryRun reachesPipeline
  by_cases hctx : env.newContextOk = true
  case neg =>
    have hctx' : env.newContextOk = false := by
      cases h : env.newContextOk
      · rfl
      · exact absurd h hctx
    simp [hctx', startsGoroutines]
  by_cases hparse : env.parseOk = true
  case neg =>
    have hparse' : env.parseOk = false := by
      cases h : env.parseOk
      · rfl
      · exact absurd h hparse
    simp [hctx, hparse', startsGoroutines]
  rw [if_neg (by simp [hctx]), if_neg (by simp [hparse])]
  by_cases hl : env.bindings.length > 0
  · have hl0 : ¬ env.bindings.length = 0 := by omega
    rcases hb : bindingsToExprs env.bindings with err | res
    · simp [if_pos hl, hb, startsGoroutines, hctx, hparse, hl0]
    · simp only [if_pos hl, hb]
      by_cases hnode : env.queryNodeOk = true
      · rw [if_neg (by simp [hnode])]
        rw [pipelineRun_startsGoroutines]
        simp [hctx, hparse, hnode, hl0, hb]
      · have hnode' : env.queryNodeOk = false := by
          cases h : env.queryNodeOk
          · rfl
          · exact absurd h hnode
        rw [if_pos (by simp [hnode'])]
        simp [startsGoroutines, hnode']
  · have hl0 : env.bindings.length = 0 := by omega
    simp only [if_neg hl]
    by_cases hnode : env.queryNodeOk = true
    · rw [if_neg (by simp [hnode])]
      rw [pipelineRun_startsGoroutines]
      simp [hctx, hparse, hnode, hl0]
    · have hnode' : env.queryNodeOk = false := by
        cases h : env.queryNodeOk
        · rfl
        · exact absurd h hnode
      rw [if_pos (by simp [hnode'])]
      simp [startsGoroutines, hnode']

theorem doQueryRun_endQueryDirect_le_one (env : DoQueryEnv) :
    (doQueryRun env).trace.count Effect.endQueryDirect ≤ 1 := by
  unfold doQueryRun pipelineRun closeTrace goStarts
  dsimp only
  repeat' split
  all_goals (dsimp only; decide)

theorem doQueryRun_eq_pipelineRun (env : DoQueryEnv) (h : reachesPipeline env = true) :
    doQueryRun env = pipelineRun env := by
  unfold reachesPipeline at h
  simp only [Bool.and_eq_true, Bool.or_eq_true, decide_eq_true_eq] at h
  obtain ⟨⟨⟨hctx, hparse⟩, hbind⟩, hnode⟩ := h
  unfold doQueryRun
  rw [if_neg (by simp [hctx]), if_neg (by simp [hparse])]
  have hbindres : (if env.bindings.length > 0 then
      match bindingsToExprs env.bindings with
      | .error e => Except.error e
      | .ok _ => Except.ok ()
    else Except.ok ()) = Except.ok () := by
    rcases hbind with h0 | hok
    · rw [if_neg (by omega)]
    · rcases hb : bindingsToExprs env.bindings with e | res
      · rw [hb] at hok
        simp at hok
      · split <;> rfl
  rw [hbindres]
  simp only []
  rw [if_neg (by simp [hnode])]

theorem doQueryRun_eq_of_noreach (env : DoQueryEnv)
    (hreach : ¬ reachesPipeline env = true)
    (hmem : Effect.beginQuery ∈ (doQueryRun env).trace) :
    doQueryRun env =
      ⟨[Effect.beginQuery] ++
          (if env.beginQueryOk || env.beginCtxNonNil then [Effect.endQueryDirect] else []),
        .returned (some (.genericError 5))⟩ := by
  unfold doQueryRun at hmem ⊢
  by_cases hctx : env.newContextOk = true
  case neg =>
    exfalso
    rw [if_pos (by simp [hctx])] at hmem
    simp at hmem
  rw [if_neg (by simp [hctx])] at hmem ⊢
  by_cases hparse : env.parseOk = true
  case neg =>
    exfalso
    rw [if_pos (by simp [hparse])] at hmem
    simp at hmem
  rw [if_neg (by simp [hparse])] at hmem ⊢
  by_cases hl : env.bindings.length > 0
  · rcases hb : bindingsToExprs env.bindings with err | res
    · exfalso
      simp only [if_pos hl, hb] at hmem
      simp at hmem
    · simp only [if_pos hl, hb] at hmem ⊢
      by_cases hnode : env.queryNodeOk = true
      · exfalso
        apply hreach
        unfold reachesPipeline
        simp [hctx, hparse, hnode, hb]
      · rw [if_pos (by simp [hnode])]
  · simp only [if_neg hl] at hmem ⊢
    by_cases hnode : env.queryNodeOk = true
    · exfalso
      apply hreach
      unfold reachesPipeline
      have hl0 : env.bindings.length = 0 := by omega
      simp [hctx, hparse, hnode, hl0]
    · rw [if_pos (by simp [hnode])]

/-- C2 counterexample: on a successful `doQuery` execution over a
`RowIter2` iterator whose producer reaches end-of-stream, the row
iterator's `Close` is invoked twice — once by the producer and once by
the joiner goroutine — not exactly once as claimed. -/
theorem doQuery_close_counterexample :
    (⟨true, true, [], true, true, true, true, .eof, false, [], 0, [],
        true, true⟩ : DoQueryEnv).beginQueryOk = true ∧
    (doQueryRun ⟨true, true, [], true, true, true, true, .eof, false, [], 0, [],
        true, true⟩).outcome = .returned none ∧
    closeCount (doQueryRun ⟨true, true, [], true, true, true, true, .eof, false, [], 0, [],
        true, true⟩).trace = 2 := by
  refine ⟨rfl, rfl, rfl⟩

/-- C2 (amended): once `BeginQuery` has registered the query, every
completed (non-panicking) `doQuery` execution closes the row iterator
exactly once in the row-oriented path and twice in the `RowIter2` path
when the producer exits by EOF or error; the process-entry `EndQuery`
removal happens exactly twice (iterator close hook plus deferred cleanup)
when after the iterator is obtained the pipeline or the status-flag
update fails — the errors that are assigned to the function-level `err` —
and exactly once on every other path: success, failures before the
iterator is obtained, and a failing final callback, whose error is
returned without being assigned to `err`, so the deferred cleanup does
not run even though `doQuery` returns that error. -/
theorem doQuery_cleanup_spec (env : DoQueryEnv) (e : Option SErr)
    (hbq : env.beginQueryOk = true)
    (hout : (doQueryRun env).outcome = .returned e)
    (hmem : Effect.beginQuery ∈ (doQueryRun env).trace) :
    closeCount (doQueryRun env).trace =
      (if reachesPipeline env then
        (if env.isRowIter2 && decide (env.producerExit ≠ .cancelled) then 2 else 1)
       else 0) ∧
    endQueryCount (doQueryRun env).trace =
      (if reachesPipeline env && errAssigned env then 2 else 1) := by
  by_cases hreach : reachesPipeline env = true
  · have hrun : doQueryRun env = pipelineRun env := doQueryRun_eq_pipelineRun env hreach
    rw [hrun] at hout ⊢
    rw [if_pos hreach]
    rw [show (reachesPipeline env && errAssigned env) = errAssigned env by
      rw [hreach, Bool.true_and]]
    exact pipelineRun_counts env e hbq hout
  · have hreach' : reachesPipeline env = false := by
      cases h : reachesPipeline env
      · rfl
      · exact absurd h hreach
    have hrun := doQueryRun_eq_of_noreach env hreach hmem
    rw [hrun]
    rw [if_neg hreach]
    rw [show (reachesPipeline env && errAssigned env) = false by
      rw [hreach', Bool.false_and]]
    rw [if_pos (by simp [hbq] : (env.beginQueryOk || env.beginCtxNonNil) = true)]
    exact ⟨rfl, rfl⟩

/-- C2 witness: the amended theorem applied to a completed row-oriented
execution whose final callback fails — `doQuery` returns the callback's
error, the iterator is closed once, and the process entry is removed once
(by the close hook alone: the error is never assigned to `err`, so the
deferred cleanup stays silent). -/
theorem doQuery_cleanup_spec_witness :
    (doQueryRun ⟨true, true, [], true, true, true, false, .eof, false, [], 0, [],
        true, false⟩).outcome = .returned (some (.genericError 7)) ∧
    closeCount (doQueryRun ⟨true, true, [], true, true, true, false, .eof, false, [], 0, [],
        true, false⟩).trace = 1 ∧
    endQueryCount (doQueryRun ⟨true, true, [], true, true, true, false, .eof, false, [], 0, [],
        true, false⟩).trace = 1 := by
  have h := doQuery_cleanup_spec
    ⟨true, true, [], true, true, true, false, .eof, false, [], 0, [], true, false⟩
    (some (.genericError 7)) rfl rfl (by decide)
  refine ⟨rfl, ?_, ?_⟩
  · have h1 := h.1
    rw [show reachesPipeline ⟨true, true, [], true, true, true, false, .eof, false, [], 0, [],
        true, false⟩ = true from rfl] at h1
    simpa using h1
  · have h2 := h.2
    rw [show (reachesPipeline ⟨true, true, [], true, true, true, false, .eof, false, [], 0, [],
          true, false⟩ &&
        errAssigned ⟨true, true, [], true, true, true, false, .eof, false, [], 0, [],
          true, false⟩) = false from rfl] at h2
    simpa using h2

/-- C7 counterexample: a `BeginQuery` failure does not prevent goroutine
startup — with `BeginQuery` erroring but `QueryNodeWithBindings`
succeeding, the producer, poller, consumer and joiner goroutines are all
started (the source never checks `BeginQuery`'s error, which the next
`:=` overwrites). -/
theorem doQuery_registration_counterexample :
    (⟨true, true, [], false, true, true, false, .eof, false, [], 0, [],
        true, true⟩ : DoQueryEnv).beginQueryOk = false ∧
    startsGoroutines (doQueryRun ⟨true, true, [], false, true, true, false, .eof, false,
        [], 0, [], true, true⟩).trace = true := by
  exact ⟨rfl, rfl⟩

/-- C7 (amended): process-list registration strictly precedes goroutine
startup — any goroutine-start effect in a `doQuery` trace is preceded by
the `BeginQuery` effect — and goroutines start exactly when
`QueryNodeWithBindings` succeeds, regardless of `BeginQuery`'s outcome;
deregistration happens in the single deferred cleanup, which runs at most
once per execution. -/
theorem doQuery_registration_spec :
    (∀ (env : DoQueryEnv) (pre post : List Effect) (g : Goroutine),
      (doQueryRun env).trace = pre ++ Effect.goStart g :: post →
      Effect.beginQuery ∈ pre) ∧
    (∀ env : DoQueryEnv, startsGoroutines (doQueryRun env).trace = reachesPipeline env) ∧
    (∀ env : DoQueryEnv, (doQueryRun env).trace.count Effect.endQueryDirect ≤ 1) := by
  refine ⟨?_, doQueryRun_startsGoroutines_iff, doQueryRun_endQueryDirect_le_one⟩
  intro env pre post g htr
  rcases doQueryRun_trace_head env with h0 | ⟨rest, hrest⟩
  · rw [h0] at htr
    exact absurd htr (by simp)
  · rw [hrest] at htr
    cases pre with
    | nil => simp at htr
    | cons a pre2 =>
      simp only [List.cons_append, List.cons.injEq] at htr
      obtain ⟨h1, _⟩ := htr
      rw [h1]
      exact List.mem_cons_self _ _

/-- C7 witness: the ordering part of the amended theorem applied to a
concrete successful execution, with the trace split at the producer
start. -/
theorem doQuery_registration_spec_witness :
    Effect.beginQuery ∈ [Effect.beginQuery] :=
  doQuery_registration_spec.1
    ⟨true, true, [], true, true, true, false, .eof, false, [], 0, [], true, true⟩
    [Effect.beginQuery]
    [Effect.goStart .poller, Effect.goStart .consumer, Effect.goStart .joiner,
     Effect.closeIter .joiner, Effect.endQueryHook]
    .producer rfl

end GMS
